import Mathlib

/-!
Verification of the `sentryfiber` middleware (`fiber/sentryfiber.go`):
a shallow embedding of its configuration handling (`New`), request
snapshot builder (`convert`), panic interceptor (`recoverWithSentry`),
benign-failure classifier (`isBrokenPipeError`), scope attacher
(`handle`) and context accessor (`GetHubFromContext`), together with
theorems checking the specification's claims about them.

Machine integers: `time.Duration` is an integer number of nanoseconds;
all durations appearing here are small positive constants, so it is
embedded as `Nat`.  Sentry event ids are opaque; they are embedded as
`Nat` and an optional id as `Option Nat`.  `*sentry.Hub` pointers are
modelled by their identity only (`Nat`), since the claims are about
instance identity (clone vs. reuse), not hub internals.
-/

/-! ### String helpers (models of Go `strings` functions) -/

/-- Boolean test that the first list is a prefix of the second. -/
def isPrefixChars : List Char → List Char → Bool
  | [], _ => true
  | _ :: _, [] => false
  | a :: as, b :: bs => a == b && isPrefixChars as bs

/-- Boolean test that `pat` occurs as a contiguous sublist of the second list. -/
def hasInfixChars : List Char → List Char → Bool
  | pat, [] => isPrefixChars pat []
  | pat, l@(_ :: rest) => isPrefixChars pat l || hasInfixChars pat rest

/-- Model of Go `strings.Contains s pat`. -/
def strContainsSub (s pat : String) : Bool := hasInfixChars pat.toList s.toList

/-- Model of Go `strings.ToLower` at the ASCII level (the substrings the
source compares against are ASCII, so only ASCII case folding is relevant). -/
def lowerStr (s : String) : String := String.mk (s.toList.map Char.toLower)

/-! ### Configuration: `Options`, `handler`, `New` -/

/-- `2 * time.Second` in nanoseconds. -/
def twoSeconds : Nat := 2000000000

/-- The exported `Options` struct of `sentryfiber`. -/
structure Options where
  Repanic : Bool
  WaitForDelivery : Bool
  Timeout : Nat
deriving DecidableEq

/-- The private `handler` struct holding the normalized configuration. -/
structure handler where
  repanic : Bool
  waitForDelivery : Bool
  timeout : Nat
deriving DecidableEq

/-- Embedding of `New(options ...Options)`: the variadic parameter becomes a
list.  `opts` starts at the built-in defaults and is overwritten by
`options[0]` exactly when `len(options) == 1`; a zero timeout is then
normalized to two seconds. -/
def New (options : List Options) : handler :=
  let defaults : Options :=
    { Repanic := true, WaitForDelivery := true, Timeout := twoSeconds }
  let opts : Options :=
    match options with
    | [o] => o
    | _ => defaults
  let timeout := if opts.Timeout == 0 then twoSeconds else opts.Timeout
  { repanic := opts.Repanic, waitForDelivery := opts.WaitForDelivery,
    timeout := timeout }

/-! ### Recovered panic values and `isBrokenPipeError` -/

/-- A Go value recovered by `recover()`.  The classifier only inspects
whether the value is a `*net.OpError` whose `Err` field is a
`*os.SyscallError`; `syscallErr msg` carries the text returned by the
syscall error's `Error()` method, and every other dynamic type is
collapsed into `otherVal`. -/
inductive PanicVal where
  | opErr (inner : PanicVal)
  | syscallErr (msg : String)
  | otherVal (tag : String)
deriving DecidableEq

/-- Embedding of `isBrokenPipeError`: a type assertion to `*net.OpError`,
then to `*os.SyscallError` on its `Err` field, then two lowercase
substring tests on the syscall error's message. -/
def isBrokenPipeError (err : PanicVal) : Bool :=
  match err with
  | .opErr (.syscallErr msg) =>
      strContainsSub (lowerStr msg) "broken pipe" ||
      strContainsSub (lowerStr msg) "connection reset by peer"
  | _ => false

/-! ### Header model (Go `http.Header` = `map[string][]string`)

A header is an association list from canonical keys to value lists; keys
are unique (every header below is built from the empty map).  The list
order of keys stands in for the (unordered) Go map; the order of values
under one key is the append order, which Go does define. -/

abbrev Header := List (String × List String)

/-- Token characters permitted in a header field name (RFC 7230 `tchar`);
Go's `textproto` leaves a key with any other byte uncanonicalized. -/
def validHeaderFieldChar (c : Char) : Bool :=
  c.isAlpha || c.isDigit ||
    [Char.ofNat 33, Char.ofNat 35, Char.ofNat 36, Char.ofNat 37,
     Char.ofNat 38, Char.ofNat 39, Char.ofNat 42, Char.ofNat 43,
     Char.ofNat 45, Char.ofNat 46, Char.ofNat 94, Char.ofNat 95,
     Char.ofNat 96, Char.ofNat 124, Char.ofNat 126].contains c

/-- ASCII uppercase of one character. -/
def asciiUpper (c : Char) : Char :=
  if c.isLower then Char.ofNat (c.toNat - 32) else c

/-- ASCII lowercase of one character. -/
def asciiLower (c : Char) : Char :=
  if c.isUpper then Char.ofNat (c.toNat + 32) else c

/-- Core loop of canonicalization: uppercase the first letter and every
letter following a hyphen, lowercase the rest. -/
def canonChars : Bool → List Char → List Char
  | _, [] => []
  | upper, c :: rest =>
    let c2 := if upper then asciiUpper c else asciiLower c
    c2 :: canonChars (c2 == Char.ofNat 45) rest

/-- Model of `textproto.CanonicalMIMEHeaderKey`: keys containing an
invalid byte are returned unchanged. -/
def canonicalKey (s : String) : String :=
  if s.toList.all validHeaderFieldChar then String.mk (canonChars true s.toList)
  else s

/-- Association lookup on raw (already canonical) keys. -/
def headerFind : Header → String → Option (List String)
  | [], _ => none
  | (k, vs) :: rest, K => if k == K then some vs else headerFind rest K

/-- Append a value under a raw key, `h[ck] = append(h[ck], v)`. -/
def addEntry : Header → String → String → Header
  | [], ck, v => [(ck, [v])]
  | (k, vs) :: rest, ck, v =>
    if k == ck then (k, vs ++ [v]) :: rest else (k, vs) :: addEntry rest ck v

/-- Replace the value list under a raw key by a singleton, `h[ck] = [v]`. -/
def setEntry : Header → String → String → Header
  | [], ck, v => [(ck, [v])]
  | (k, vs) :: rest, ck, v =>
    if k == ck then (k, [v]) :: rest else (k, vs) :: setEntry rest ck v

/-- Model of `http.Header.Add`: canonicalize the key, append the value. -/
def headerAdd (h : Header) (k v : String) : Header :=
  addEntry h (canonicalKey k) v

/-- Model of `http.Header.Set`: canonicalize the key, replace the values. -/
def headerSet (h : Header) (k v : String) : Header :=
  setEntry h (canonicalKey k) v

/-- Model of `http.Header.Get`: first value under the canonical key, or
the empty string when the key is absent. -/
def headerGet (h : Header) (k : String) : String :=
  match headerFind h (canonicalKey k) with
  | some (x :: _) => x
  | _ => ""

/-- Model of `http.Request.AddCookie`: serialize `name=value` and append
it to the `Cookie` header (joined with `"; "` when one is already
present).  Byte-level sanitization of cookie names/values by `net/http`
is elided; it never touches any other header key. -/
def addCookieHeader (h : Header) (name value : String) : Header :=
  let s := name ++ "=" ++ value
  let c := headerGet h "Cookie"
  if c == "" then headerSet h "Cookie" s
  else headerSet h "Cookie" (c ++ "; " ++ s)

/-! ### The native request context and the snapshot builder `convert` -/

/-- The fields of `*fasthttp.RequestCtx` that `convert` reads.  Headers
and cookies are listed in the order `VisitAll` / `VisitAllCookie` yields
them. -/
structure FastHTTPCtx where
  method : String
  scheme : String
  host : String
  path : String
  queryString : String
  headers : List (String × String)
  cookies : List (String × String)
  remoteAddr : String
  body : String
deriving DecidableEq

/-- The components of a parsed `*url.URL` that the program uses. -/
structure URL where
  scheme : String
  host : String
  path : String
  rawQuery : String
deriving DecidableEq

/-- The fields of the `*http.Request` snapshot that `convert` populates.
`convert` only returns a snapshot whose `URL` pointer is non-nil (a nil
one makes it panic first), so `url` is a plain field here; a nil
`*http.Request` itself is `none` at the `Option HTTPRequest` type. -/
structure HTTPRequest where
  method : String
  url : URL
  header : Header
  host : String
  remoteAddr : String
  body : String
deriving DecidableEq

/-- The string `fmt.Sprintf("%s://%s%s", uri.Scheme(), uri.Host(), uri.Path())`
that `convert` hands to `url.Parse`. -/
def urlString (ctx : FastHTTPCtx) : String :=
  ctx.scheme ++ "://" ++ ctx.host ++ ctx.path

/-- The header map `convert` builds: the synthetic `Host` entry first,
then every native header via `Header.Add`, then the cookies via
`Request.AddCookie`. -/
def convertHeaders (ctx : FastHTTPCtx) : Header :=
  let hdr0 := headerAdd [] "Host" ctx.host
  let hdr1 := ctx.headers.foldl (fun h kv => headerAdd h kv.1 kv.2) hdr0
  ctx.cookies.foldl (fun h kv => addCookieHeader h kv.1 kv.2) hdr1

/-- The runtime panics that can occur inside `convert`'s body. -/
inductive ConvertPanic where
  | nilPointerDeref
deriving DecidableEq

/-- Body of `convert` without its deferred `recover`, parameterized by
the external `url.Parse` (`parse`, whose ignored error outcome is
`none`).  When `url.Parse` fails, `r.URL` stays nil and the later
assignment `r.URL.RawQuery = ...` dereferences a nil pointer, raising a
runtime panic. -/
def convertUnsafe (parse : String → Option URL) (ctx : FastHTTPCtx) :
    Except ConvertPanic HTTPRequest :=
  let urlOpt := parse (urlString ctx)
  let hdr := convertHeaders ctx
  match urlOpt with
  | none => .error .nilPointerDeref
  | some u =>
    .ok { method := ctx.method
          url := { u with rawQuery := ctx.queryString }
          header := hdr
          host := ctx.host
          remoteAddr := ctx.remoteAddr
          body := ctx.body }

/-- Embedding of `convert`: the deferred `recover` catches any panic from
the body, logs it, and lets the function return the zero value of its
unnamed result — a nil `*http.Request`, modelled as `none`. -/
def convert (parse : String → Option URL) (ctx : FastHTTPCtx) :
    Option HTTPRequest :=
  match convertUnsafe parse ctx with
  | .ok r => some r
  | .error _ => none

/-- Control characters are rejected by `net/url.Parse`. -/
def hasCtlChar (s : String) : Bool :=
  s.toList.any (fun c => c.toNat < 32 || c.toNat == 127)

/-- Model of the external `net/url.Parse` on the absolute
`scheme://host/path` strings that `convert` assembles: it returns an
error (here `none`) when the string contains an ASCII control character,
and otherwise splits the string at `://` and at the first following
slash, with an empty `RawQuery`. -/
def goUrlParse (s : String) : Option URL :=
  if hasCtlChar s then none
  else
    let cs := s.toList
    let scheme := cs.takeWhile (fun c => c != Char.ofNat 58)
    let rest := (cs.dropWhile (fun c => c != Char.ofNat 58)).drop 3
    let host := rest.takeWhile (fun c => c != Char.ofNat 47)
    let path := rest.dropWhile (fun c => c != Char.ofNat 47)
    some { scheme := String.mk scheme, host := String.mk host,
           path := String.mk path, rawQuery := "" }

/-! ### The panic interceptor `recoverWithSentry`

The hub's externally-observable actions are recorded as an event trace:
one `report` per `hub.RecoverWithContext` call, one `flush` per
`hub.Flush` call, and `rethrow` for `panic(err)`.  The event id that
`RecoverWithContext` would return for the submission is supplied as the
parameter `eventID` (the external reporting client may drop the report
and return nil). -/

/-- One externally visible action of the interceptor; `nilDerefCrash` is
the runtime nil-pointer panic escaping from `r.Context()` when the
request pointer handed to the interceptor is nil. -/
inductive REvent where
  | report (err : PanicVal) (r : Option HTTPRequest)
  | flush (timeout : Nat)
  | rethrow (err : PanicVal)
  | nilDerefCrash
deriving DecidableEq

/-- Embedding of `(*handler).recoverWithSentry`: `recovered` is the value
returned by `recover()` (`none` when the downstream chain returned
normally), `r` the request pointer it was given.  Yields the trace of
hub calls and re-panics.

When the failure is not benign and `r` is nil — a reachable state, since
`convert` returns nil on an unparsable URL and `handle` passes its
result straight to the deferred call — the source dereferences the nil
request in `r.Context()` (the first argument of `RecoverWithContext`,
sentryfiber.go line 118) and dies with a runtime nil-pointer panic
before any hub call: no report is submitted, no flush happens, the
`h.repanic` check is never reached, and the value escaping the function
is the runtime error, not the original failure.  This is the
`nilDerefCrash` branch.  The source writes the `h.repanic` check once,
after the non-benign block; here that tail is duplicated into the two
branches that reach it, which is the same control flow, while the crash
branch aborts before it. -/
def recoverWithSentry (h : handler) (eventID : Option Nat) :
    Option PanicVal → Option HTTPRequest → List REvent
  | none, _ => []
  | some err, r =>
    if isBrokenPipeError err then
      if h.repanic then [REvent.rethrow err] else []
    else
      match r with
      | none => [REvent.nilDerefCrash]
      | some req =>
        (REvent.report err (some req) ::
          (if eventID.isSome && h.waitForDelivery then [REvent.flush h.timeout]
           else [])) ++
        (if h.repanic then [REvent.rethrow err] else [])

/-- The `RecoverWithContext` submissions appearing in a trace. -/
def reportsOf (evs : List REvent) : List (PanicVal × Option HTTPRequest) :=
  evs.foldr
    (fun e acc => match e with | .report err r => (err, r) :: acc | _ => acc) []

/-- The `Flush` timeouts appearing in a trace. -/
def flushesOf (evs : List REvent) : List Nat :=
  evs.foldr (fun e acc => match e with | .flush t => t :: acc | _ => acc) []

/-- The re-raised panic values appearing in a trace. -/
def rethrowsOf (evs : List REvent) : List PanicVal :=
  evs.foldr (fun e acc => match e with | .rethrow e2 => e2 :: acc | _ => acc) []

/-! ### The scope attacher `handle` and the accessor `GetHubFromContext` -/

/-- The per-request key-value store `ctx.Locals`; in this program the only
value ever stored is a `*sentry.Hub`, modelled by its identity. -/
abbrev Locals := List (String × Nat)

/-- The fixed key under which the hub is stored. -/
def valuesKey : String := "sentry"

/-- Model of `ctx.Locals(key)` (read). -/
def localsGet (L : Locals) (k : String) : Option Nat :=
  (L.find? (fun p => p.1 == k)).map (fun p => p.2)

/-- Model of `ctx.Locals(key, v)` (write). -/
def localsSet (L : Locals) (k : String) (v : Nat) : Locals := (k, v) :: L

/-- Embedding of the exported `GetHubFromContext`: the stored hub, or nil
when nothing is stored under the key. -/
def GetHubFromContext (L : Locals) : Option Nat :=
  match localsGet L valuesKey with
  | some hub => some hub
  | none => none

/-- Result of one request through `(*handler).handle`: the hub stored for
the request, the snapshot attached to the scope at entry, the native
state passed to each of the two `convert` calls, the locals store after
the write, the interceptor's event trace, and the native state after the
downstream chain ran. -/
structure HandleResult where
  storedHub : Nat
  scopeRequest : Option HTTPRequest
  convertCalls : List FastHTTPCtx
  locals : Locals
  events : List REvent
  nativeAfter : FastHTTPCtx

set_option linter.unusedVariables false in
/-- Embedding of `(*handler).handle`.  `outerHub` is what
`sentry.GetHubFromContext(ctx.Context())` finds in the outer context;
`currentHub` is `sentry.CurrentHub()` and `freshClone` the identity that
`Clone()` would allocate (a fresh instance, hence distinct from every
existing hub — theorems assume `freshClone ≠ currentHub`; `currentHub`
itself is otherwise untouched by the code).  `downstream` is
`ctx.Next()`: it may mutate the native request state and may panic.
In Go the arguments of a deferred call are evaluated when the `defer`
statement executes, not when the deferred function later runs, so the
second `convert(ctx.Context())` — the argument of the deferred
`recoverWithSentry` — is evaluated before `ctx.Next()`, on the
entry-time native state. -/
def handle (h : handler) (parse : String → Option URL)
    (outerHub : Option Nat) (currentHub freshClone : Nat)
    (eventID : Option Nat) (locals0 : Locals) (native0 : FastHTTPCtx)
    (downstream : FastHTTPCtx → FastHTTPCtx × Option PanicVal) :
    HandleResult :=
  let hub : Nat :=
    match outerHub with
    | some x => x
    | none => freshClone
  let scopeReq := convert parse native0
  let locals1 := localsSet locals0 valuesKey hub
  let deferSnap := convert parse native0
  let dres := downstream native0
  let evs := recoverWithSentry h eventID dres.2 deferSnap
  { storedHub := hub, scopeRequest := scopeReq,
    convertCalls := [native0, native0],
    locals := locals1, events := evs, nativeAfter := dres.1 }


/-! ### Shared concrete inputs for witnesses and counterexamples -/

/-- A well-formed sample native request. -/
def sampleCtx : FastHTTPCtx :=
  { method := "GET", scheme := "http", host := "example.com", path := "/foo",
    queryString := "x=1", headers := [("X-Test", "a")], cookies := [("c", "v")],
    remoteAddr := "192.0.2.1:1234", body := "" }

/-- A handler with the default configuration values. -/
def sampleHandler : handler :=
  { repanic := true, waitForDelivery := true, timeout := twoSeconds }

/-- A native request whose host contains an ASCII NUL, making the
assembled URL string unparsable. -/
def ctlCtx : FastHTTPCtx := { sampleCtx with host := "e\x00h" }

/-- The snapshot `convert` builds from `sampleCtx`. -/
def sampleSnap : HTTPRequest :=
  { method := "GET"
    url := { scheme := "http", host := "example.com", path := "/foo",
             rawQuery := "x=1" }
    header := convertHeaders sampleCtx
    host := "example.com"
    remoteAddr := "192.0.2.1:1234"
    body := "" }

/-- The two benign substrings are already lowercase. -/
theorem lowerStr_brokenPipe : lowerStr "broken pipe" = "broken pipe" := by decide

/-- The second benign substring is already lowercase. -/
theorem lowerStr_connReset :
    lowerStr "connection reset by peer" = "connection reset by peer" := by decide

/-- Spec-side reading of "contains X case-insensitively": fold the case of
both the message and the pattern, then test containment. -/
def containsCaseInsensitive (s pat : String) : Bool :=
  strContainsSub (lowerStr s) (lowerStr pat)

/-! ### Claims about `New` (C3, C10) -/

/-- C3 counterexample: passing the all-zero `Options{}` to `New` does not
reproduce the documented defaults — the returned handler has
`repanic = false` and `waitForDelivery = false`, because a single
explicit options value overwrites the defaults wholesale and only the
zero timeout is re-normalized. -/
theorem New_zero_options_disables_repanic :
    (New [{ Repanic := false, WaitForDelivery := false, Timeout := 0 }]).repanic
      = false ∧
    (New [{ Repanic := false, WaitForDelivery := false, Timeout := 0 }]).waitForDelivery
      = false := by
  decide

/-- C3 amended: an all-zero `Options` value passed to `New` yields
`repanic = false`, `waitForDelivery = false`, and only the timeout is
normalized to the default two seconds; the full documented defaults
apply when no options value is supplied. -/
theorem New_zero_options_normalizes_only_timeout :
    New [{ Repanic := false, WaitForDelivery := false, Timeout := 0 }]
      = { repanic := false, waitForDelivery := false, timeout := twoSeconds } ∧
    New [] = { repanic := true, waitForDelivery := true, timeout := twoSeconds } := by
  decide

/-- C10: when two or more `Options` values are supplied, `New` ignores
all of them and uses the built-in defaults, exactly as with no options. -/
theorem New_multiple_options_ignored :
    ∀ options : List Options, 2 ≤ options.length →
      New options
        = { repanic := true, waitForDelivery := true, timeout := twoSeconds } ∧
      New options = New [] := by
  intro options hlen
  cases options with
  | nil => simp at hlen
  | cons a t =>
    cases t with
    | nil => simp at hlen
    | cons b u => exact ⟨rfl, rfl⟩

/-- C10 witness: two concrete options values, both ignored. -/
theorem New_multiple_options_ignored_witness :
    2 ≤ ([{ Repanic := false, WaitForDelivery := false, Timeout := 7 },
          { Repanic := true, WaitForDelivery := false, Timeout := 9 }] :
            List Options).length ∧
    New [{ Repanic := false, WaitForDelivery := false, Timeout := 7 },
         { Repanic := true, WaitForDelivery := false, Timeout := 9 }]
      = { repanic := true, waitForDelivery := true, timeout := twoSeconds } := by
  refine ⟨by decide, ?_⟩
  exact (New_multiple_options_ignored
    [{ Repanic := false, WaitForDelivery := false, Timeout := 7 },
     { Repanic := true, WaitForDelivery := false, Timeout := 9 }] (by decide)).1

/-! ### Claims about `recoverWithSentry` (C1, C2, C4) -/

/-- C1 failing input: an unparsable request URL makes `convert` return
the nil request, `handle` hands it to the deferred interceptor, and a
non-benign downstream panic under `repanic = true` then crashes the
interceptor in `r.Context()`: the trace holds neither a report nor a
rethrow of the original failure — only the runtime nil-pointer panic —
although the claim (and the spec's propagation policy) demand exactly
one report followed by the original value re-raised unchanged. -/
theorem handle_nil_snapshot_crashes_interceptor :
    convert goUrlParse ctlCtx = none ∧
    (handle sampleHandler goUrlParse none 0 7 (some 1) [] ctlCtx
        (fun s => (s, some (PanicVal.otherVal "boom")))).events
      = [REvent.nilDerefCrash] ∧
    reportsOf (handle sampleHandler goUrlParse none 0 7 (some 1) [] ctlCtx
        (fun s => (s, some (PanicVal.otherVal "boom")))).events = [] ∧
    rethrowsOf (handle sampleHandler goUrlParse none 0 7 (some 1) [] ctlCtx
        (fun s => (s, some (PanicVal.otherVal "boom")))).events = [] := by
  refine ⟨by decide, rfl, rfl, rfl⟩

/-- C2: a recovered value is classified benign exactly when it is a
network-operation error wrapping a syscall error whose message contains
"broken pipe" or "connection reset by peer" case-insensitively; for a
benign failure nothing is reported and nothing is flushed, but the
failure is still re-raised when `repanic` is set. -/
theorem isBrokenPipeError_classification_and_benign_suppression :
    (∀ err : PanicVal,
      isBrokenPipeError err = true ↔
        ∃ msg, err = PanicVal.opErr (PanicVal.syscallErr msg) ∧
          (containsCaseInsensitive msg "broken pipe" = true ∨
           containsCaseInsensitive msg "connection reset by peer" = true)) ∧
    (∀ (h : handler) (eventID : Option Nat) (err : PanicVal)
       (r : Option HTTPRequest),
      isBrokenPipeError err = true →
        reportsOf (recoverWithSentry h eventID (some err) r) = [] ∧
        flushesOf (recoverWithSentry h eventID (some err) r) = [] ∧
        recoverWithSentry h eventID (some err) r
          = (if h.repanic then [REvent.rethrow err] else [])) := by
  constructor
  · intro err
    constructor
    · intro hb
      match err with
      | .opErr (.syscallErr msg) =>
        refine ⟨msg, rfl, ?_⟩
        unfold isBrokenPipeError at hb
        unfold containsCaseInsensitive
        rw [lowerStr_brokenPipe, lowerStr_connReset]
        rcases Bool.or_eq_true_iff.mp hb with h1 | h2
        · exact Or.inl h1
        · exact Or.inr h2
      | .opErr (.opErr _) => simp [isBrokenPipeError] at hb
      | .opErr (.otherVal _) => simp [isBrokenPipeError] at hb
      | .syscallErr _ => simp [isBrokenPipeError] at hb
      | .otherVal _ => simp [isBrokenPipeError] at hb
    · rintro ⟨msg, rfl, hc⟩
      unfold containsCaseInsensitive at hc
      rw [lowerStr_brokenPipe, lowerStr_connReset] at hc
      unfold isBrokenPipeError
      rcases hc with h1 | h2
      · exact Bool.or_eq_true_iff.mpr (Or.inl h1)
      · exact Bool.or_eq_true_iff.mpr (Or.inr h2)
  · intro h eventID err r hben
    cases hrep : h.repanic <;>
      simp [recoverWithSentry, hben, hrep, reportsOf, flushesOf]

/-- C2 witness: a concrete benign failure (an op-error wrapping a syscall
error mentioning "Broken PIPE" in mixed case) is suppressed but still
re-raised under `repanic = true`. -/
theorem benign_suppression_witness :
    reportsOf (recoverWithSentry sampleHandler (some 1)
        (some (PanicVal.opErr (PanicVal.syscallErr "write: Broken PIPE"))) none)
      = [] ∧
    recoverWithSentry sampleHandler (some 1)
        (some (PanicVal.opErr (PanicVal.syscallErr "write: Broken PIPE"))) none
      = [REvent.rethrow
          (PanicVal.opErr (PanicVal.syscallErr "write: Broken PIPE"))] := by
  have h := isBrokenPipeError_classification_and_benign_suppression.2
    sampleHandler (some 1)
    (PanicVal.opErr (PanicVal.syscallErr "write: Broken PIPE")) none (by decide)
  exact ⟨h.1, h.2.2⟩

/-- C4: once a non-benign failure has been submitted (the request
snapshot handed to the interceptor is non-nil, so `RecoverWithContext`
is reached), `Flush` is called — with the configured timeout — exactly
when the submission returned a non-nil event id and `waitForDelivery` is
set; on the nil-snapshot crash path no submission happens and no flush
occurs either. -/
theorem recoverWithSentry_flush_iff_eventID_and_wait :
    ∀ (h : handler) (eventID : Option Nat) (err : PanicVal)
      (req : HTTPRequest),
      isBrokenPipeError err = false →
        flushesOf (recoverWithSentry h eventID (some err) (some req))
          = (if eventID.isSome && h.waitForDelivery then [h.timeout] else []) ∧
        (flushesOf (recoverWithSentry h eventID (some err) (some req)) ≠ [] ↔
          (eventID.isSome = true ∧ h.waitForDelivery = true)) ∧
        flushesOf (recoverWithSentry h eventID (some err) none) = [] := by
  intro h eventID err req hben
  simp only [recoverWithSentry, hben]
  cases hrep : h.repanic <;>
    cases hei : eventID.isSome <;>
    cases hw : h.waitForDelivery <;>
    simp [flushesOf]

/-- C4 witness: with a dropped report (nil event id) no flush happens;
the theorem applied at a concrete input. -/
theorem recoverWithSentry_flush_iff_witness :
    flushesOf (recoverWithSentry sampleHandler none
        (some (PanicVal.otherVal "boom")) (some sampleSnap))
      = [] := by
  have h := recoverWithSentry_flush_iff_eventID_and_wait
    sampleHandler none (PanicVal.otherVal "boom") sampleSnap (by decide)
  simpa using h.1

/-! ### Claims about `handle` (C5, C7) -/

/-- C5 counterexample: with a hub (identity 5) already present in the
outer context, `handle` stores exactly that pre-existing instance for
the request — the source uses it as-is and only clones when none was
found — refuting "the stored per-request hub is never the same instance
as the pre-existing one". -/
theorem handle_reuses_outer_hub_instance :
    (handle sampleHandler goUrlParse (some 5) 0 7 none [] sampleCtx
        (fun s => (s, none))).storedHub = 5 := rfl

/-- C5 amended: when an Isolated Reporting Context already exists in the
outer context, `handle` stores that very instance (no clone); only when
none exists does it store a fresh clone of the process-wide current hub,
distinct from the current hub itself. -/
theorem handle_hub_selection_amended :
    ∀ (h : handler) (parse : String → Option URL) (outerHub : Option Nat)
      (currentHub freshClone : Nat) (eventID : Option Nat) (locals0 : Locals)
      (native0 : FastHTTPCtx)
      (downstream : FastHTTPCtx → FastHTTPCtx × Option PanicVal),
      (∀ x, outerHub = some x →
        (handle h parse outerHub currentHub freshClone eventID locals0 native0
          downstream).storedHub = x) ∧
      (outerHub = none → freshClone ≠ currentHub →
        (handle h parse outerHub currentHub freshClone eventID locals0 native0
          downstream).storedHub = freshClone ∧
        (handle h parse outerHub currentHub freshClone eventID locals0 native0
          downstream).storedHub ≠ currentHub) := by
  intro h parse outerHub currentHub freshClone eventID locals0 native0 downstream
  constructor
  · intro x hx
    subst hx
    rfl
  · intro hn hne
    subst hn
    exact ⟨rfl, hne⟩

/-- C5 witness: with an empty outer context, the freshly allocated clone
(identity 7, distinct from the current hub 0) is stored. -/
theorem handle_hub_selection_witness :
    (handle sampleHandler goUrlParse none 0 7 none [] sampleCtx
        (fun s => (s, none))).storedHub = 7 := by
  exact ((handle_hub_selection_amended sampleHandler goUrlParse none 0 7 none []
    sampleCtx (fun s => (s, none))).2 rfl (by decide)).1

/-- A downstream handler that mutates the native request method and then
panics with a non-benign value. -/
def mutateDownstream : FastHTTPCtx → FastHTTPCtx × Option PanicVal :=
  fun s => ({ s with method := "POST" }, some (PanicVal.otherVal "boom"))

/-- C7 counterexample: the downstream chain changes the request method to
"POST" before panicking, yet the snapshot submitted with the failure
still shows the entry-time method "GET" — the deferred call's `convert`
argument was evaluated at entry, so the submitted snapshot does not
reflect the native request state at failure time. -/
theorem handle_submitted_snapshot_is_entry_time :
    reportsOf (handle sampleHandler goUrlParse none 0 7 (some 1) [] sampleCtx
        mutateDownstream).events
      = [(PanicVal.otherVal "boom", convert goUrlParse sampleCtx)] ∧
    (handle sampleHandler goUrlParse none 0 7 (some 1) [] sampleCtx
        mutateDownstream).nativeAfter.method = "POST" ∧
    (convert goUrlParse sampleCtx).map (fun r => r.method) = some "GET" ∧
    (convert goUrlParse sampleCtx).map (fun r => r.method)
      ≠ (convert goUrlParse ((handle sampleHandler goUrlParse none 0 7 (some 1)
          [] sampleCtx mutateDownstream).nativeAfter)).map (fun r => r.method) := by
  refine ⟨rfl, rfl, by decide, by decide⟩

/-- C7 amended: the snapshot is built exactly twice per request — once
for scope attachment and once as the deferred interceptor call's
argument — but both builds happen at request entry (Go evaluates the
arguments of a deferred call at the `defer` statement), so when the
entry-time build succeeded (non-nil snapshot) the snapshot submitted
together with a failure is that entry-time snapshot, reflecting the
entry-time native state; when the entry-time build failed, the
interceptor crashes and submits nothing (see the C1 crash theorem). -/
theorem handle_builds_two_entry_snapshots :
    ∀ (h : handler) (parse : String → Option URL) (outerHub : Option Nat)
      (currentHub freshClone : Nat) (eventID : Option Nat) (locals0 : Locals)
      (native0 : FastHTTPCtx)
      (downstream : FastHTTPCtx → FastHTTPCtx × Option PanicVal),
      (handle h parse outerHub currentHub freshClone eventID locals0 native0
        downstream).convertCalls = [native0, native0] ∧
      (handle h parse outerHub currentHub freshClone eventID locals0 native0
        downstream).scopeRequest = convert parse native0 ∧
      (∀ native1 err req, downstream native0 = (native1, some err) →
        isBrokenPipeError err = false →
        convert parse native0 = some req →
        reportsOf (handle h parse outerHub currentHub freshClone eventID locals0
            native0 downstream).events
          = [(err, some req)]) := by
  intro h parse outerHub currentHub freshClone eventID locals0 native0 downstream
  refine ⟨rfl, rfl, ?_⟩
  intro native1 err req hd hben hc
  have he : (handle h parse outerHub currentHub freshClone eventID locals0
      native0 downstream).events
      = recoverWithSentry h eventID (downstream native0).2
          (convert parse native0) := rfl
  rw [he, hd, hc]
  cases hrep : h.repanic <;>
    cases hw : (eventID.isSome && h.waitForDelivery) <;>
      simp [recoverWithSentry, hben, hrep, hw, reportsOf]

/-- C7 witness: the amended theorem applied to the concrete mutating
downstream handler, whose entry snapshot builds successfully. -/
theorem handle_builds_two_entry_snapshots_witness :
    (handle sampleHandler goUrlParse none 0 7 (some 1) [] sampleCtx
        mutateDownstream).convertCalls = [sampleCtx, sampleCtx] ∧
    reportsOf (handle sampleHandler goUrlParse none 0 7 (some 1) [] sampleCtx
        mutateDownstream).events
      = [(PanicVal.otherVal "boom", convert goUrlParse sampleCtx)] := by
  have h := handle_builds_two_entry_snapshots sampleHandler goUrlParse none 0 7
    (some 1) [] sampleCtx mutateDownstream
  have hc : convert goUrlParse sampleCtx = some sampleSnap := by decide
  refine ⟨h.1, ?_⟩
  rw [hc]
  exact h.2.2 { sampleCtx with method := "POST" } (PanicVal.otherVal "boom")
    sampleSnap rfl (by decide) hc

/-! ### Claims about `convert` (C6, C8) -/

/-- C6 counterexample: with a control character in the native host,
`url.Parse` fails, the ignored error leaves `r.URL` nil, the later
`r.URL.RawQuery` assignment panics, the deferred `recover` swallows the
panic, and `convert` returns the nil request — an absent result, not a
partially populated snapshot. -/
theorem convert_returns_none_on_unparsable_url :
    convert goUrlParse ctlCtx = none := by decide

/-- C6 amended: `convert` never propagates a failure to its caller: it
returns a fully populated snapshot whenever the assembled URL parses,
but when URL parsing fails the recovered internal panic makes it return
the nil (absent) request rather than a partially populated snapshot. -/
theorem convert_total_amended :
    ∀ (parse : String → Option URL) (ctx : FastHTTPCtx),
      (∀ u, parse (urlString ctx) = some u →
        convert parse ctx = some
          { method := ctx.method
            url := { u with rawQuery := ctx.queryString }
            header := convertHeaders ctx
            host := ctx.host
            remoteAddr := ctx.remoteAddr
            body := ctx.body }) ∧
      (parse (urlString ctx) = none → convert parse ctx = none) := by
  intro parse ctx
  constructor
  · intro u hu
    simp [convert, convertUnsafe, hu]
  · intro hn
    simp [convert, convertUnsafe, hn]

/-- C6 witness: the amended theorem applied to the well-formed sample
request, whose URL parses. -/
theorem convert_total_witness :
    convert goUrlParse sampleCtx = some
      { method := "GET"
        url := { scheme := "http", host := "example.com", path := "/foo",
                 rawQuery := "x=1" }
        header := convertHeaders sampleCtx
        host := "example.com"
        remoteAddr := "192.0.2.1:1234"
        body := "" } := by
  exact (convert_total_amended goUrlParse sampleCtx).1
    { scheme := "http", host := "example.com", path := "/foo", rawQuery := "" }
    (by decide)

/-- Looking up the key just appended to finds the extended value list. -/
theorem headerFind_addEntry_same (h : Header) (ck v : String) :
    headerFind (addEntry h ck v) ck = some ((headerFind h ck).getD [] ++ [v]) := by
  induction h with
  | nil => simp [addEntry, headerFind]
  | cons p rest ih =>
    obtain ⟨k, vs⟩ := p
    by_cases hk : (k == ck) = true
    · simp [addEntry, headerFind, hk]
    · simp only [Bool.not_eq_true] at hk
      simp [addEntry, headerFind, hk, ih]

/-- Appending under a different key leaves a lookup unchanged. -/
theorem headerFind_addEntry_ne (h : Header) (ck v K : String)
    (hne : (ck == K) = false) :
    headerFind (addEntry h ck v) K = headerFind h K := by
  induction h with
  | nil => simp [addEntry, headerFind, hne]
  | cons p rest ih =>
    obtain ⟨k, vs⟩ := p
    by_cases hk : (k == ck) = true
    · have hkck : k = ck := eq_of_beq hk
      subst hkck
      simp [addEntry, headerFind, hne]
    · simp only [Bool.not_eq_true] at hk
      simp [addEntry, headerFind, hk, ih]

/-- Setting under a different key leaves a lookup unchanged. -/
theorem headerFind_setEntry_ne (h : Header) (ck v K : String)
    (hne : (ck == K) = false) :
    headerFind (setEntry h ck v) K = headerFind h K := by
  induction h with
  | nil => simp [setEntry, headerFind, hne]
  | cons p rest ih =>
    obtain ⟨k, vs⟩ := p
    by_cases hk : (k == ck) = true
    · have hkck : k = ck := eq_of_beq hk
      subst hkck
      simp [setEntry, headerFind, hne]
    · simp only [Bool.not_eq_true] at hk
      simp [setEntry, headerFind, hk, ih]

/-- Adding a cookie only touches the `Cookie` key, never `Host`. -/
theorem headerFind_addCookie_host (h : Header) (name value : String) :
    headerFind (addCookieHeader h name value) "Host" = headerFind h "Host" := by
  have hck : canonicalKey "Cookie" = "Cookie" := by decide
  unfold addCookieHeader headerSet
  rw [hck]
  by_cases hc : (headerGet h "Cookie" == "") = true
  · simp only [hc, if_true]
    exact headerFind_setEntry_ne h "Cookie" _ "Host" (by decide)
  · simp only [Bool.not_eq_true] at hc
    simp only [hc, Bool.false_eq_true, if_false]
    exact headerFind_setEntry_ne h "Cookie" _ "Host" (by decide)

/-- Folding the cookie list over a header leaves the `Host` key unchanged. -/
theorem headerFind_foldCookies_host (cookies : List (String × String))
    (h : Header) :
    headerFind (cookies.foldl (fun acc kv => addCookieHeader acc kv.1 kv.2) h)
        "Host"
      = headerFind h "Host" := by
  induction cookies generalizing h with
  | nil => rfl
  | cons kv rest ih =>
    simp only [List.foldl_cons]
    rw [ih, headerFind_addCookie_host]

/-- Folding the native headers over a map appends, under `Host`, exactly
the values of the native entries whose canonical key is `Host`. -/
theorem headerFind_foldHeaders_host (hs : List (String × String)) (h : Header)
    (vs : List String) (hfind : headerFind h "Host" = some vs) :
    headerFind (hs.foldl (fun acc kv => headerAdd acc kv.1 kv.2) h) "Host"
      = some (vs ++
          (hs.filter (fun kv => canonicalKey kv.1 == "Host")).map
            (fun kv => kv.2)) := by
  induction hs generalizing h vs with
  | nil => simpa using hfind
  | cons kv rest ih =>
    simp only [List.foldl_cons]
    by_cases hck : (canonicalKey kv.1 == "Host") = true
    · have hck2 : canonicalKey kv.1 = "Host" := eq_of_beq hck
      have hstep : headerFind (headerAdd h kv.1 kv.2) "Host"
          = some (vs ++ [kv.2]) := by
        unfold headerAdd
        rw [hck2, headerFind_addEntry_same, hfind]
        rfl
      rw [ih (headerAdd h kv.1 kv.2) (vs ++ [kv.2]) hstep]
      simp [List.filter_cons, hck]
    · simp only [Bool.not_eq_true] at hck
      have hstep : headerFind (headerAdd h kv.1 kv.2) "Host"
          = some vs := by
        unfold headerAdd
        rw [headerFind_addEntry_ne h (canonicalKey kv.1) kv.2 "Host" hck]
        exact hfind
      rw [ih (headerAdd h kv.1 kv.2) vs hstep]
      simp [List.filter_cons, hck]

/-- C8: in any snapshot `convert` returns, the value list under the
`Host` key starts with the synthetic entry taken from the connection's
host — added before the native header scan — followed by every native
header value whose canonical key is `Host`: a native Host header never
replaces the synthetic one, and both end up present in the multi-map. -/
theorem convert_synthetic_host_header_first :
    ∀ (parse : String → Option URL) (ctx : FastHTTPCtx) (r : HTTPRequest),
      convert parse ctx = some r →
        headerFind r.header "Host"
          = some (ctx.host ::
              (ctx.headers.filter (fun kv => canonicalKey kv.1 == "Host")).map
                (fun kv => kv.2)) := by
  intro parse ctx r hr
  have hhdr : r.header = convertHeaders ctx := by
    unfold convert convertUnsafe at hr
    cases hp : parse (urlString ctx) with
    | none => rw [hp] at hr; simp at hr
    | some u =>
      rw [hp] at hr
      simp only [Option.some.injEq] at hr
      rw [← hr]
  rw [hhdr]
  unfold convertHeaders
  have hbase : headerFind (headerAdd [] "Host" ctx.host) "Host"
      = some [ctx.host] := by
    have hck : canonicalKey "Host" = "Host" := by decide
    unfold headerAdd
    rw [hck]
    simp [addEntry, headerFind]
  rw [headerFind_foldCookies_host,
    headerFind_foldHeaders_host ctx.headers _ [ctx.host] hbase]
  simp

/-- A native request that also carries its own `Host` header entry. -/
def hostSpoofCtx : FastHTTPCtx :=
  { sampleCtx with headers := [("Host", "native.example")] }

/-- C8 witness: with a native `Host` header present, the snapshot's
`Host` value list holds the synthetic connection host first and the
native value second — both present. -/
theorem convert_synthetic_host_header_witness :
    headerFind (convertHeaders hostSpoofCtx) "Host"
      = some ["example.com", "native.example"] := by
  have h := convert_synthetic_host_header_first goUrlParse hostSpoofCtx
    { method := "GET"
      url := { scheme := "http", host := "example.com", path := "/foo",
               rawQuery := "x=1" }
      header := convertHeaders hostSpoofCtx
      host := "example.com"
      remoteAddr := "192.0.2.1:1234"
      body := "" } (by decide)
  have h2 : (hostSpoofCtx.host ::
      (hostSpoofCtx.headers.filter
        (fun kv => canonicalKey kv.1 == "Host")).map (fun kv => kv.2))
      = ["example.com", "native.example"] := by decide
  rw [← h2]
  exact h

/-! ### Claim about `GetHubFromContext` (C9) -/

/-- C9: on the per-request store written by `handle`, the accessor
returns exactly the stored hub; on a store the attacher never wrote
(e.g. middleware running before it), it returns the explicit nil, never
a default instance. -/
theorem GetHubFromContext_stored_or_absent :
    (∀ (h : handler) (parse : String → Option URL) (outerHub : Option Nat)
       (currentHub freshClone : Nat) (eventID : Option Nat) (locals0 : Locals)
       (native0 : FastHTTPCtx)
       (downstream : FastHTTPCtx → FastHTTPCtx × Option PanicVal),
      GetHubFromContext
          (handle h parse outerHub currentHub freshClone eventID locals0
            native0 downstream).locals
        = some (handle h parse outerHub currentHub freshClone eventID locals0
            native0 downstream).storedHub) ∧
    GetHubFromContext [] = none := by
  constructor
  · intro h parse outerHub currentHub freshClone eventID locals0 native0
      downstream
    rfl
  · rfl
